import Mathlib

/-!
Verification development for the dataset-processing pipeline
(`process_datasets.py`).  The Python `DatasetProcessor` class and the
`main` driver are shallowly embedded as executable Lean definitions:
numpy arrays become lists, machine floats become rationals (numeric
content of the signal transforms is abstracted; shapes are modelled
faithfully from the parameters each librosa call receives), Python
exceptions become `Option`/`Except`, and the unseeded `np.random.choice`
draw becomes an explicit draw parameter.
-/

set_option maxRecDepth 4096

/-! ### Fixed extraction configuration (DatasetProcessor.__init__) -/

def sample_rate : Nat := 22050

def hop_length : Nat := 512

def n_fft : Nat := 2048

def n_mels : Nat := 128

def n_chroma : Nat := 12

/-- The fixed chord vocabulary `self.chord_vocab` (order is significant:
`list.index` positions are the class indices). -/
def chord_vocab : List String :=
  ["C", "C#", "D", "D#", "E", "F"] ++
  ["F#", "G", "G#", "A", "A#", "B"] ++
  ["Cm", "C#m", "Dm", "D#m", "Em", "Fm"] ++
  ["F#m", "Gm", "G#m", "Am", "A#m", "Bm"] ++
  ["C7", "D7", "E7", "G7", "A7"] ++
  ["Cm7", "Dm7", "Em7", "Gm7", "Am7"]

/-! ### Filename-based label inference (infer_chord_from_filename) -/

/-- ASCII model of Python `str.lower` on one character (filenames in the
datasets are ASCII). -/
def lowerChar (c : Char) : Char :=
  if 'A' ≤ c ∧ c ≤ 'Z' then Char.ofNat (c.toNat + 32) else c

/-- `filename.lower()` as a character list. -/
def lowerStr (s : String) : List Char := s.data.map lowerChar

/-- Python `pattern in filename` (substring test), on character lists:
list-prefix test. -/
def isPrefixOfL (pat s : List Char) : Bool :=
  match pat with
  | [] => true
  | a :: as =>
    match s with
    | [] => false
    | b :: bs => a == b && isPrefixOfL as bs

/-- Python `pattern in filename` (substring test), on character lists. -/
def isInfixOfL (pat : List Char) : List Char → Bool
  | [] => pat.isEmpty
  | b :: bs => isPrefixOfL pat (b :: bs) || isInfixOfL pat bs

/-- The `chord_mappings` dict of `infer_chord_from_filename`, as the
ordered (pattern, chord) table the Python 3.7+ dict iteration walks. -/
def chord_mappings : List (String × String) :=
  [("a", "A"), ("am", "Am"), ("a7", "A7"),
   ("c", "C"), ("cm", "Cm"), ("c7", "C7"),
   ("d", "D"), ("dm", "Dm"), ("d7", "D7"),
   ("e", "E"), ("em", "Em"), ("e7", "E7"),
   ("g", "G"), ("gm", "Gm"), ("g7", "G7")]

/-- The `for pattern, chord in chord_mappings.items(): if pattern in
filename_lower: return chord` loop: first matching pattern wins. -/
def first_match (low : List Char) (table : List (String × String)) : Option String :=
  (table.find? (fun pc => isInfixOfL pc.1.data low)).map Prod.snd

/-- The deterministic part of `infer_chord_from_filename`: the pattern
scan before the random fallback. -/
def infer_det (filename : String) : Option String :=
  first_match (lowerStr filename) chord_mappings

/-- The fallback set of `np.random.choice([...])`. -/
def fallback_chords : List String :=
  ["C", "D", "E", "G", "A", "Am", "Em", "Dm"]

/-- `DatasetProcessor.infer_chord_from_filename`.  The unseeded
`np.random.choice` draw is modelled by the explicit `rng` argument
(index of the drawn element). -/
def infer_chord_from_filename (filename : String) (rng : Nat) : String :=
  match infer_det filename with
  | some c => c
  | none => fallback_chords.getD (rng % fallback_chords.length) "C"

/-! ### Feature extraction (extract_features) -/

/-- Number of short-time frames produced by `librosa.stft` with centered
framing: the signal is padded by `n_fft // 2` on both sides and analysed
with the given window and hop. -/
def stft_frames (len nfft hop : Nat) : Nat :=
  (len + 2 * (nfft / 2) - nfft) / hop + 1

/-- Number of frames produced by librosa frame-based features (`rms`,
`zero_crossing_rate`) with centered framing: padding `frame_length // 2`
on both sides, then sliding a window of `frame` samples by `hop`. -/
def framed_frames (len frame hop : Nat) : Nat :=
  (len + 2 * (frame / 2) - frame) / hop + 1

/-- The feature dict returned by `extract_features` (after the `.T`
transposes, arrays are time-major: one row per frame). -/
structure FeatureBundle where
  chroma : List (List ℚ)
  mel_spectrogram : List (List ℚ)
  mfcc : List (List ℚ)
  spectral_centroid : List (List ℚ)
  rms : List (List ℚ)
  zcr : List (List ℚ)
  time_steps : Nat
  chroma_bins : Nat
  mel_bins : Nat
  mfcc_coeffs : Nat
deriving DecidableEq

/-- `DatasetProcessor.extract_features`.  Shape-level model of the six
librosa calls: each array's frame count is computed from the parameters
the source passes to that call (`n_fft`/`hop_length` for the STFT-based
descriptors, `frame_length = self.n_fft` and `hop_length` for `rms` and
`zero_crossing_rate`); numeric content is abstracted to zeros.  The
`try/except` that returns the empty dict on a degenerate (empty)
waveform is modelled by `Option.none`. -/
def extract_features (audio : List ℚ) : Option FeatureBundle :=
  if audio.isEmpty then none
  else
    some
      { chroma :=
          List.replicate (stft_frames audio.length n_fft hop_length)
            (List.replicate n_chroma 0)
      , mel_spectrogram :=
          List.replicate (stft_frames audio.length n_fft hop_length)
            (List.replicate n_mels 0)
      , mfcc :=
          List.replicate (stft_frames audio.length n_fft hop_length)
            (List.replicate 13 0)
      , spectral_centroid :=
          List.replicate (stft_frames audio.length n_fft hop_length) [0]
      , rms :=
          List.replicate (framed_frames audio.length n_fft hop_length) [0]
      , zcr :=
          List.replicate (framed_frames audio.length n_fft hop_length) [0]
      , time_steps := stft_frames audio.length n_fft hop_length
      , chroma_bins := n_chroma
      , mel_bins := n_mels
      , mfcc_coeffs := 13 }

/-! ### Samples and the corpus (process_guitarset / process_idmt_guitar /
save_processed_data) -/

/-- One sample record as assembled by the source adapters. -/
structure Sample where
  id : String
  chord : String
  instrument : String
  quality : String
  audio_file : String
  duration : ℚ
  features : Option FeatureBundle
deriving DecidableEq

/-- The `metadata` block computed by `save_processed_data`. -/
structure CorpusMetadata where
  total_samples : Nat
  unique_chords : Nat
  chord_distribution : String → Nat
  instruments : List String
  qualities : List String

/-- The persisted corpus document: `metadata` plus the ordered sample
list. -/
structure CorpusDocM where
  metadata : CorpusMetadata
  samples : List Sample

/-- The statistics `save_processed_data` computes over the sample list:
`len(samples)`, `len(set(chords))`, the label histogram from
`np.unique(chords, return_counts=True)`, and the instrument/quality
sets. -/
def metadata_of (samples : List Sample) : CorpusMetadata :=
  { total_samples := samples.length
  , unique_chords := ((samples.map Sample.chord).eraseDups).length
  , chord_distribution := fun s => (samples.map Sample.chord).count s
  , instruments := (samples.map Sample.instrument).eraseDups
  , qualities := (samples.map Sample.quality).eraseDups }

/-! ### Training data preparation (prepare_training_data) -/

/-- The chroma list carried by a sample; `[]` when the features dict is
empty (`sample.get('features')` falsy) or has no usable chroma. -/
def chromaOf (s : Sample) : List (List ℚ) :=
  match s.features with
  | none => []
  | some b => b.chroma

/-- `np.array(chroma).size`: total number of scalar entries. -/
def chroma_size (rows : List (List ℚ)) : Nat := (rows.map List.length).sum

/-- The guard of the `prepare_training_data` loop: the sample is kept
when `sample['features']` is truthy, `features['chroma']` is truthy, and
`chroma.size > 0`. -/
def usable (s : Sample) : Bool :=
  match s.features with
  | none => false
  | some b => !b.chroma.isEmpty && (chroma_size b.chroma != 0)

/-- `np.mean(chroma, axis=0)`: per-column arithmetic mean over the time
axis (the row count), for a rectangular array given as a row list. -/
def meanAxis0 (rows : List (List ℚ)) : List ℚ :=
  match rows with
  | [] => []
  | r0 :: _ =>
      (List.range r0.length).map
        (fun j => ((rows.map (fun r => r.getD j 0)).sum) / (rows.length : ℚ))

/-- `self.chord_vocab.index(chord) if chord in self.chord_vocab else 0`. -/
def label_to_index (chord : String) : Nat :=
  if chord ∈ chord_vocab then chord_vocab.indexOf chord else 0

instance {ε α : Type} [DecidableEq ε] [DecidableEq α] : DecidableEq (Except ε α)
  | Except.error e, Except.error f =>
      if h : e = f then isTrue (by rw [h]) else isFalse (by intro hh; cases hh; exact h rfl)
  | Except.error _, Except.ok _ => isFalse (by intro hh; cases hh)
  | Except.ok _, Except.error _ => isFalse (by intro hh; cases hh)
  | Except.ok a, Except.ok b =>
      if h : a = b then isTrue (by rw [h]) else isFalse (by intro hh; cases hh; exact h rfl)

/-- `DatasetProcessor.prepare_training_data`: collect the mean-reduced
chroma vector and vocabulary index of every usable sample; raising
`ValueError` on an empty feature list is modelled by `Except.error`. -/
def prepare_training_data (samples : List Sample) :
    Except String (List (List ℚ) × List Nat) :=
  if ((samples.filter usable).map (fun s => meanAxis0 (chromaOf s))).isEmpty then
    Except.error "Nenhuma feature válida encontrada"
  else
    Except.ok
      ((samples.filter usable).map (fun s => meanAxis0 (chromaOf s)),
       (samples.filter usable).map (fun s => label_to_index s.chord))

/-! ### Persistence model for save_processed_data (claim C2)

`save_processed_data` serializes the corpus document and writes it with
`open(output_file, 'w')` followed by `json.dump`, directly at the
destination path.  We model the document as a token stream and the write
as a sequence of file operations, and collect every destination content
observable if the run crashes at any point (after any prefix of the
operations, including mid-write). -/

/-- Corpus document as persisted: the claimed sample count plus the
serialized sample list (content abstracted to tokens). -/
structure CorpusData where
  total_samples : Nat
  sample_tokens : List Nat
deriving DecidableEq

/-- Flat serialization of a corpus document to a token stream. -/
def serializeDoc (d : CorpusData) : List Nat :=
  d.total_samples :: d.sample_tokens

/-- A file operation at the destination path. -/
inductive WOp where
  | truncate : WOp
  | append : List Nat → WOp
deriving DecidableEq

/-- The operations `save_processed_data` performs at the destination:
`open(output_file, 'w')` truncates it in place, then `json.dump` writes
the serialized document.  No temporary file and no rename occur. -/
def save_ops (d : CorpusData) : List WOp :=
  [WOp.truncate, WOp.append (serializeDoc d)]

/-- All destination contents observable if the process stops at any
point during the operation sequence: after each operation prefix, and
after any partial append. -/
def crashContents : List Nat → List WOp → List (List Nat)
  | cur, [] => [cur]
  | cur, WOp.truncate :: rest => cur :: crashContents [] rest
  | cur, WOp.append chunk :: rest =>
      (List.range (chunk.length + 1)).map (fun j => cur ++ List.take j chunk)
        ++ crashContents (cur ++ chunk) rest

/-! ### Pipeline label assignment (process_guitarset, process_idmt_guitar,
main) -/

/-- Python `stem.split('_')` on a character list: split at every
underscore. -/
def splitUnd : List Char → List (List Char)
  | [] => [[]]
  | c :: cs =>
      if c = '_' then [] :: splitUnd cs
      else (c :: (splitUnd cs).headD []) :: (splitUnd cs).tail

/-- `audio_file.stem.split('_')` as strings. -/
def split_parts (stem : String) : List String :=
  (splitUnd stem.data).map String.mk

/-- The GuitarSet adapter's per-file labeling: split the stem on `_`;
files with fewer than three parts are skipped; otherwise the chord is
`parts[1]`, taken verbatim. -/
def guitarset_label (stem : String) : Option String :=
  if (split_parts stem).length < 3 then none
  else some ((split_parts stem).getD 1 "")

/-- Labels assigned by the IDMT adapter to a file list, with `rng k`
the random draw available to the `k`-th file (consumed only when the
filename matches no pattern). -/
def idmt_labels_from (rng : Nat → Nat) : Nat → List String → List String
  | _, [] => []
  | k, f :: fs =>
      infer_chord_from_filename f (rng k) :: idmt_labels_from rng (k + 1) fs

/-- The chord-label sequence of the full pipeline run (`main`): the
GuitarSet samples (adapter order first) followed by the IDMT samples. -/
def pipeline_labels (gfiles ifiles : List String) (rng : Nat → Nat) : List String :=
  gfiles.filterMap guitarset_label ++ idmt_labels_from rng 0 ifiles

/-- `metadata['total_samples']` of the persisted corpus, as a function of
the label sequence (one label per sample). -/
def total_samples_of (labels : List String) : Nat := labels.length

/-- `metadata['chord_distribution']` of the persisted corpus: the
label histogram. -/
def chord_distribution (labels : List String) (s : String) : Nat :=
  labels.count s

/-! ### The main driver (main) -/

/-- What `main` leaves on disk: the JSON corpus document (if written) and
the `training_data.npz` artifact (if written). -/
structure RunResult where
  corpus : Option CorpusDocM
  training : Option (List (List ℚ) × List Nat)

/-- `main`: concatenate the adapters' samples; if there are none, report
and return with nothing persisted.  Otherwise `save_processed_data`
writes the corpus document, and then `prepare_training_data` is
attempted inside `try/except`: on success the training artifact is also
written, on failure only the already-written corpus remains. -/
def main_run (gsamples isamples : List Sample) : RunResult :=
  if (gsamples ++ isamples).isEmpty then { corpus := none, training := none }
  else
    match prepare_training_data (gsamples ++ isamples) with
    | Except.ok xy =>
        { corpus := some { metadata := metadata_of (gsamples ++ isamples),
                           samples := gsamples ++ isamples },
          training := some xy }
    | Except.error _ =>
        { corpus := some { metadata := metadata_of (gsamples ++ isamples),
                           samples := gsamples ++ isamples },
          training := none }

/-! ## Helper lemmas -/

theorem isPrefixOfL_single (x : Char) (xs s : List Char)
    (h : isPrefixOfL (x :: xs) s = true) : isPrefixOfL [x] s = true := by
  cases s with
  | nil => simp [isPrefixOfL] at h
  | cons b bs =>
    simp only [isPrefixOfL, Bool.and_eq_true] at h
    simp [isPrefixOfL, h.1]

theorem isInfixOfL_single (x : Char) (xs : List Char) :
    ∀ s : List Char, isInfixOfL (x :: xs) s = true → isInfixOfL [x] s = true := by
  intro s
  induction s with
  | nil => intro h; simp [isInfixOfL, List.isEmpty] at h
  | cons b bs ih =>
    intro h
    simp only [isInfixOfL, Bool.or_eq_true] at h ⊢
    cases h with
    | inl hp => exact Or.inl (isPrefixOfL_single x xs (b :: bs) hp)
    | inr hi => exact Or.inr (ih hi)

theorem infer_det_some_rng (f c : String) (h : infer_det f = some c) (rng : Nat) :
    infer_chord_from_filename f rng = c := by
  simp [infer_chord_from_filename, h]

theorem infix_false_of_single (x : Char) (xs low : List Char)
    (hx : isInfixOfL [x] low = false) : isInfixOfL (x :: xs) low = false := by
  cases hy : isInfixOfL (x :: xs) low with
  | false => rfl
  | true => exact absurd (isInfixOfL_single x xs low hy) (by simp [hx])

theorem first_match_cons_pos (low : List Char) (p c : String)
    (rest : List (String × String)) (h : isInfixOfL p.data low = true) :
    first_match low ((p, c) :: rest) = some c := by
  unfold first_match
  rw [@List.find?_cons_of_pos _ (fun pc => isInfixOfL pc.1.data low) (p, c) rest h]
  rfl

theorem first_match_cons_neg (low : List Char) (p c : String)
    (rest : List (String × String)) (h : isInfixOfL p.data low = false) :
    first_match low ((p, c) :: rest) = first_match low rest := by
  unfold first_match
  rw [@List.find?_cons_of_neg _ (fun pc => isInfixOfL pc.1.data low) (p, c) rest
    (by simp [h])]

/-! ## Claims -/

/-- Claim C9: the deterministic pattern-matching path of
`infer_chord_from_filename` can only return a bare major label from
A, C, D, E, G — every single-letter pattern precedes that letter's
`m`/`7` patterns in the table order, and a filename containing the
longer pattern also contains the letter, so the minor and seventh table
entries are unreachable and minor labels can only arise from the random
fallback draw. -/
theorem det_path_only_majors (f c : String) (h : infer_det f = some c) :
    c = "A" ∨ c = "C" ∨ c = "D" ∨ c = "E" ∨ c = "G" := by
  unfold infer_det chord_mappings at h
  cases ha : isInfixOfL ['a'] (lowerStr f) with
  | true =>
    rw [first_match_cons_pos _ _ _ _ ha] at h
    exact Or.inl (Option.some.inj h).symm
  | false =>
  rw [first_match_cons_neg _ _ _ _ ha,
      first_match_cons_neg _ _ _ _ (infix_false_of_single 'a' ['m'] _ ha),
      first_match_cons_neg _ _ _ _ (infix_false_of_single 'a' ['7'] _ ha)] at h
  cases hc : isInfixOfL ['c'] (lowerStr f) with
  | true =>
    rw [first_match_cons_pos _ _ _ _ hc] at h
    exact Or.inr (Or.inl (Option.some.inj h).symm)
  | false =>
  rw [first_match_cons_neg _ _ _ _ hc,
      first_match_cons_neg _ _ _ _ (infix_false_of_single 'c' ['m'] _ hc),
      first_match_cons_neg _ _ _ _ (infix_false_of_single 'c' ['7'] _ hc)] at h
  cases hd : isInfixOfL ['d'] (lowerStr f) with
  | true =>
    rw [first_match_cons_pos _ _ _ _ hd] at h
    exact Or.inr (Or.inr (Or.inl (Option.some.inj h).symm))
  | false =>
  rw [first_match_cons_neg _ _ _ _ hd,
      first_match_cons_neg _ _ _ _ (infix_false_of_single 'd' ['m'] _ hd),
      first_match_cons_neg _ _ _ _ (infix_false_of_single 'd' ['7'] _ hd)] at h
  cases he : isInfixOfL ['e'] (lowerStr f) with
  | true =>
    rw [first_match_cons_pos _ _ _ _ he] at h
    exact Or.inr (Or.inr (Or.inr (Or.inl (Option.some.inj h).symm)))
  | false =>
  rw [first_match_cons_neg _ _ _ _ he,
      first_match_cons_neg _ _ _ _ (infix_false_of_single 'e' ['m'] _ he),
      first_match_cons_neg _ _ _ _ (infix_false_of_single 'e' ['7'] _ he)] at h
  cases hg : isInfixOfL ['g'] (lowerStr f) with
  | true =>
    rw [first_match_cons_pos _ _ _ _ hg] at h
    exact Or.inr (Or.inr (Or.inr (Or.inr (Option.some.inj h).symm)))
  | false =>
  rw [first_match_cons_neg _ _ _ _ hg,
      first_match_cons_neg _ _ _ _ (infix_false_of_single 'g' ['m'] _ hg),
      first_match_cons_neg _ _ _ _ (infix_false_of_single 'g' ['7'] _ hg)] at h
  exact absurd h (by simp [first_match])

/-- Witness for C9 at the concrete filename "gm". -/
theorem det_path_only_majors_witness :
    "G" = "A" ∨ "G" = "C" ∨ "G" = "D" ∨ "G" = "E" ∨ "G" = "G" :=
  det_path_only_majors "gm" "G" (by decide)

/-- Claim C1 (code bug): a filename containing "gm" is NOT labeled `Gm`.
The single-letter pattern `g` is iterated before `gm`, and `"gm"`
contains `"g"`, so `infer_chord_from_filename` returns `G` on the
filename "gm" (for every random draw — the fallback is not reached),
although the table's own `'gm' -> 'Gm'` entry says the intended label is
`Gm`. -/
theorem gm_filename_gets_G :
    infer_det "gm" = some "G" ∧
    (∀ rng : Nat, infer_chord_from_filename "gm" rng = "G") ∧
    "G" ≠ "Gm" := by
  refine ⟨by decide, ?_, by decide⟩
  intro rng
  exact infer_det_some_rng "gm" "G" (by decide) rng

/-- Claim C2, counterexample: `save_processed_data` does not follow
atomic-write discipline.  Starting from a destination holding a
consistent one-sample document, a crash between the in-place truncation
(`open(output_file, 'w')`) and the `json.dump` write of a two-sample
document leaves the destination empty — neither the old nor the new
document, so visibility at the destination path is not all-or-nothing. -/
theorem save_crash_can_empty_destination :
    [] ∈ crashContents (serializeDoc ⟨1, [7]⟩) (save_ops ⟨2, [5, 6]⟩) ∧
    ([] : List Nat) ≠ serializeDoc ⟨1, [7]⟩ ∧
    ([] : List Nat) ≠ serializeDoc ⟨2, [5, 6]⟩ := by
  decide

/-- Claim C2 as amended: `save_processed_data` truncates the destination
in place and writes the serialized document directly there (no temporary
file, no rename), so a failure partway leaves the destination holding
either the old content or some prefix (possibly empty) of the new
serialization — all-or-nothing visibility is not guaranteed. -/
theorem save_write_in_place_prefix (old : List Nat) (d : CorpusData)
    (c : List Nat) (h : c ∈ crashContents old (save_ops d)) :
    c = old ∨ ∃ j, j ≤ (serializeDoc d).length ∧ c = (serializeDoc d).take j := by
  simp only [save_ops, crashContents, List.nil_append, List.mem_cons,
    List.mem_append, List.mem_map, List.mem_range, List.mem_singleton] at h
  rcases h with h | ⟨j, hj, hc⟩ | h | h
  · exact Or.inl h
  · exact Or.inr ⟨j, Nat.lt_succ_iff.mp hj, hc.symm⟩
  · exact Or.inr ⟨(serializeDoc d).length, Nat.le_refl _,
      by rw [h, List.take_length]⟩
  · exact absurd h (List.not_mem_nil c)

/-- Witness for the amended C2 at a concrete crash state. -/
theorem save_write_in_place_prefix_witness :
    ([] : List Nat) = [9] ∨
    ∃ j, j ≤ (serializeDoc ⟨1, [7]⟩).length ∧
      ([] : List Nat) = (serializeDoc ⟨1, [7]⟩).take j :=
  save_write_in_place_prefix [9] ⟨1, [7]⟩ [] (by decide)

/-- Claim C3, counterexample: corpus content is not idempotent across
runs.  For the fixed input file list `["brr"]` of the unstructured
source (no pattern of the table matches "brr"), two pipeline runs whose
unseeded random fallback draws differ produce different label
histograms: the first labels the file `C`, the second `D`. -/
theorem pipeline_histogram_differs :
    chord_distribution (pipeline_labels [] ["brr"] (fun _ => 0)) "C" = 1 ∧
    chord_distribution (pipeline_labels [] ["brr"] (fun _ => 1)) "C" = 0 ∧
    total_samples_of (pipeline_labels [] ["brr"] (fun _ => 0)) =
      total_samples_of (pipeline_labels [] ["brr"] (fun _ => 1)) := by
  decide

theorem idmt_labels_from_eq (i : List String) (r1 r2 : Nat → Nat)
    (h : ∀ f ∈ i, (infer_det f).isSome) :
    ∀ k1 k2 : Nat, idmt_labels_from r1 k1 i = idmt_labels_from r2 k2 i := by
  induction i with
  | nil => intro k1 k2; rfl
  | cons f fs ih =>
    intro k1 k2
    obtain ⟨c, hc⟩ := Option.isSome_iff_exists.mp (h f (List.mem_cons_self f fs))
    simp only [idmt_labels_from, infer_det_some_rng f c hc]
    rw [ih (fun x hx => h x (List.mem_cons_of_mem f hx)) (k1 + 1) (k2 + 1)]

/-- Claim C3 as amended: two runs over the same fixed inputs always agree
on `metadata.total_samples`; they also agree on the label histogram
whenever every unstructured-source filename matches some pattern of the
fixed table (the deterministic path) — but when a file falls through to
the unseeded random fallback, the two runs' draws may differ and the
histograms can differ (the counterexample above). -/
theorem pipeline_content_idempotent_when_matched (g i : List String)
    (r1 r2 : Nat → Nat) (h : ∀ f ∈ i, (infer_det f).isSome) :
    total_samples_of (pipeline_labels g i r1) =
      total_samples_of (pipeline_labels g i r2) ∧
    ∀ s, chord_distribution (pipeline_labels g i r1) s =
      chord_distribution (pipeline_labels g i r2) s := by
  have hlab : pipeline_labels g i r1 = pipeline_labels g i r2 := by
    unfold pipeline_labels
    rw [idmt_labels_from_eq i r1 r2 h 0 0]
  rw [hlab]
  exact ⟨rfl, fun _ => rfl⟩

/-- Claim C4: for every input waveform, `extract_features` either fails
as a whole (empty bundle, modelled `none`, as the `except` branch
returns `{}`) or returns a bundle in which the chroma, mel, cepstral,
centroid, RMS and zero-crossing arrays are all non-empty and share the
same first-axis frame count — never a partial or mismatched bundle. -/
theorem extract_features_all_or_nothing (audio : List ℚ) :
    extract_features audio = none ∨
    ∃ b, extract_features audio = some b ∧
      b.chroma.length ≠ 0 ∧
      b.mel_spectrogram.length = b.chroma.length ∧
      b.mfcc.length = b.chroma.length ∧
      b.spectral_centroid.length = b.chroma.length ∧
      b.rms.length = b.chroma.length ∧
      b.zcr.length = b.chroma.length := by
  by_cases h : audio.isEmpty
  · exact Or.inl (by simp [extract_features, h])
  · right
    unfold extract_features
    rw [if_neg h]
    refine ⟨_, rfl, ?_, ?_, ?_, ?_, ?_, ?_⟩ <;>
      simp [stft_frames, framed_frames]

/-- Claim C5: the label-to-index mapping of `prepare_training_data` is a
deterministic total function: every label of the fixed chord vocabulary
maps to its own position (case-sensitive exact match), and every string
outside the vocabulary maps to index 0. -/
theorem label_to_index_total :
    (∀ i : Fin chord_vocab.length, label_to_index (chord_vocab.get i) = i.val) ∧
    (∀ s : String, s ∉ chord_vocab → label_to_index s = 0) := by
  constructor
  · decide
  · intro s h
    rw [label_to_index, if_neg h]

/-- Witness for C5: the vocabulary label "Gm" (position 19) maps to 19,
and the out-of-vocabulary label "Hm" maps to 0. -/
theorem label_to_index_total_witness :
    label_to_index (chord_vocab.get ⟨19, by decide⟩) = 19 ∧
    label_to_index "Hm" = 0 :=
  ⟨label_to_index_total.1 ⟨19, by decide⟩, label_to_index_total.2 "Hm" (by decide)⟩

/-- Claim C10: the fallback index 0 of the vocabulary is the position of
the genuine label "C", so every out-of-vocabulary label receives the
same class index as a true C-major sample and the two are
indistinguishable in the emitted label array. -/
theorem oov_label_collides_with_C :
    chord_vocab.getD 0 "" = "C" ∧
    ∀ s : String, s ∉ chord_vocab →
      label_to_index s = label_to_index "C" := by
  refine ⟨by decide, ?_⟩
  have hC : label_to_index "C" = 0 := by decide
  intro s h
  rw [hC, label_to_index, if_neg h]

/-- Witness for C10 at the out-of-vocabulary label "Q". -/
theorem oov_label_collides_with_C_witness :
    label_to_index "Q" = label_to_index "C" :=
  oov_label_collides_with_C.2 "Q" (by decide)

/-- Witness for the amended C3 at concrete inputs. -/
theorem pipeline_content_idempotent_when_matched_witness :
    total_samples_of (pipeline_labels ["p1_C_fingerstyle"] ["gm"] (fun _ => 0)) =
      total_samples_of (pipeline_labels ["p1_C_fingerstyle"] ["gm"] (fun _ => 1)) ∧
    ∀ s, chord_distribution (pipeline_labels ["p1_C_fingerstyle"] ["gm"] (fun _ => 0)) s =
      chord_distribution (pipeline_labels ["p1_C_fingerstyle"] ["gm"] (fun _ => 1)) s :=
  pipeline_content_idempotent_when_matched ["p1_C_fingerstyle"] ["gm"]
    (fun _ => 0) (fun _ => 1) (by decide)
/-- A concrete IDMT-style sample with extracted features, used to
instantiate theorems at a concrete input. -/
def demo_sample : Sample :=
  { id := "IDMT_c_01", chord := "C", instrument := "guitar", quality := "mixed",
    audio_file := "datasets/idmt-guitar/c_01.wav", duration := 600 / 22050,
    features := extract_features (List.replicate 600 0) }

/-- A concrete sample whose feature extraction failed (empty dict). -/
def featless_sample : Sample :=
  { id := "IDMT_take1", chord := "E", instrument := "guitar", quality := "mixed",
    audio_file := "datasets/idmt-guitar/take1.wav", duration := 0,
    features := none }

theorem usable_chromaOf_ne_nil (s : Sample) (h : usable s = true) :
    chromaOf s ≠ [] := by
  unfold usable at h
  unfold chromaOf
  cases hf : s.features with
  | none => rw [hf] at h; cases h
  | some b =>
    rw [hf] at h
    have h' : (!b.chroma.isEmpty && (chroma_size b.chroma != 0)) = true := h
    show b.chroma ≠ []
    intro hnil
    rw [hnil] at h'
    simp [List.isEmpty] at h'

theorem meanAxis0_length (rows : List (List ℚ)) (hne : rows ≠ []) :
    (meanAxis0 rows).length = (rows.headD []).length := by
  cases rows with
  | nil => exact absurd rfl hne
  | cons r rs => simp [meanAxis0]

theorem headD_mem (rows : List (List ℚ)) (hne : rows ≠ []) :
    rows.headD [] ∈ rows := by
  cases rows with
  | nil => exact absurd rfl hne
  | cons r rs => exact List.mem_cons_self r rs

/-- Claim C6: for every sample list whose stored chroma rows all have
the configured bin count, a successful `prepare_training_data` run
returns one mean-reduced vector per usable sample, each of length
`n_chroma` (= 12) independent of the sample duration, and exactly as
many feature vectors as label indices. -/
theorem training_vectors_shape (samples : List Sample)
    (hw : ∀ s ∈ samples, ∀ r ∈ chromaOf s, r.length = n_chroma)
    (X : List (List ℚ)) (y : List Nat)
    (hok : prepare_training_data samples = Except.ok (X, y)) :
    X.length = y.length ∧
    X.length = (samples.filter usable).length ∧
    (∀ v ∈ X, v.length = n_chroma) := by
  unfold prepare_training_data at hok
  by_cases hemp :
      ((samples.filter usable).map (fun s => meanAxis0 (chromaOf s))).isEmpty
  · rw [if_pos hemp] at hok; cases hok
  · rw [if_neg hemp] at hok
    have hX : (samples.filter usable).map (fun s => meanAxis0 (chromaOf s)) = X :=
      congrArg Prod.fst (Except.ok.inj hok)
    have hy : (samples.filter usable).map (fun s => label_to_index s.chord) = y :=
      congrArg Prod.snd (Except.ok.inj hok)
    refine ⟨?_, ?_, ?_⟩
    · rw [← hX, ← hy, List.length_map, List.length_map]
    · rw [← hX, List.length_map]
    · intro v hv
      rw [← hX] at hv
      obtain ⟨s, hs, rfl⟩ := List.mem_map.mp hv
      obtain ⟨hsmem, hsus⟩ := List.mem_filter.mp hs
      have hne := usable_chromaOf_ne_nil s hsus
      rw [meanAxis0_length (chromaOf s) hne]
      exact hw s hsmem (chromaOf s |>.headD []) (headD_mem (chromaOf s) hne)

/-- Witness for C6 at the one-sample list `[demo_sample]`. -/
theorem training_vectors_shape_witness :
    (([demo_sample].filter usable).map (fun s => meanAxis0 (chromaOf s))).length =
      (([demo_sample].filter usable).map (fun s => label_to_index s.chord)).length ∧
    (([demo_sample].filter usable).map (fun s => meanAxis0 (chromaOf s))).length =
      ([demo_sample].filter usable).length ∧
    (∀ v ∈ ([demo_sample].filter usable).map (fun s => meanAxis0 (chromaOf s)),
      v.length = n_chroma) :=
  training_vectors_shape [demo_sample] (by decide)
    (([demo_sample].filter usable).map (fun s => meanAxis0 (chromaOf s)))
    (([demo_sample].filter usable).map (fun s => label_to_index s.chord)) (by rfl)

/-- Claim C7: when no sample has usable features, `prepare_training_data`
fails by raising (modelled `Except.error`), `main` catches it, and the
run ends with the already-persisted corpus document intact (its metadata
consistent with its sample list) and no training artifact. -/
theorem empty_training_set_keeps_corpus (g i : List Sample)
    (hne : g ++ i ≠ [])
    (hu : ∀ s ∈ g ++ i, usable s = false) :
    prepare_training_data (g ++ i) =
      Except.error "Nenhuma feature válida encontrada" ∧
    main_run g i =
      { corpus := some { metadata := metadata_of (g ++ i), samples := g ++ i },
        training := none } ∧
    (metadata_of (g ++ i)).total_samples = (g ++ i).length := by
  have hfil : (g ++ i).filter usable = [] := by
    rw [List.filter_eq_nil_iff]
    intro a ha
    simp [hu a ha]
  have hprep : prepare_training_data (g ++ i) =
      Except.error "Nenhuma feature válida encontrada" := by
    unfold prepare_training_data
    rw [hfil]
    rfl
  have hnemp : (g ++ i).isEmpty = false := by
    cases hgi : g ++ i with
    | nil => exact absurd hgi hne
    | cons a l => rfl
  refine ⟨hprep, ?_, rfl⟩
  unfold main_run
  rw [hnemp, hprep]
  rfl

/-- Witness for C7 at a one-sample corpus whose extraction failed. -/
theorem empty_training_set_keeps_corpus_witness :
    prepare_training_data ([featless_sample] ++ []) =
      Except.error "Nenhuma feature válida encontrada" ∧
    main_run [featless_sample] [] =
      { corpus := some { metadata := metadata_of ([featless_sample] ++ []),
                         samples := [featless_sample] ++ [] },
        training := none } ∧
    (metadata_of ([featless_sample] ++ [])).total_samples =
      ([featless_sample] ++ []).length :=
  empty_training_set_keeps_corpus [featless_sample] [] (by simp) (by decide)

/-- Claim C8: when the adapters produce no samples at all, the run is
fatal and nothing is persisted: neither the corpus document nor the
training artifact is written. -/
theorem empty_corpus_persists_nothing (g i : List Sample) (h : g ++ i = []) :
    main_run g i = { corpus := none, training := none } := by
  unfold main_run
  rw [h]
  rfl

/-- Witness for C8 at the empty adapter outputs. -/
theorem empty_corpus_persists_nothing_witness :
    main_run [] [] = { corpus := none, training := none } :=
  empty_corpus_persists_nothing [] [] rfl
